import Mathlib

/-!
# Verification of `trailer_header.go`

A shallow embedding of the HTTP-trailer demonstration program
(`src/trailer_header.go`).  The program consists of a server handler
(`serverHandler`, lines 27–88) that drains a request body, inspects the
trailer map, parses a declared body length with `strconv.Atoi` and compares
it with the observed length; and a client (`main`, lines 90–175) that
streams a payload through an `io.Pipe` and declares its byte length in the
`X-Body-Byte-Length` trailer field.

Bytes are modelled as `Nat`, Go strings as Lean `String`, Go header maps
(`http.Header`) as association lists `List (String × List String)`, and the
result of `io.ReadAll` as `Except String (List Nat)`.  Go's `int` is the
64-bit signed integer type, modelled as `Int` with explicit range checks
where the source (`strconv.Atoi`) performs them.
-/

/-- The constant `trailerHeaderName` (line 24 of the source). -/
def trailerHeaderName : String := "X-Body-Byte-Length"

/-- Model of `strconv`'s digit accumulation: value of a single ASCII digit
character, `none` when the character is not in `'0'..'9'`
(`strconv.ParseUint` rejects any other character). -/
def digitVal (c : Char) : Option Nat :=
  if 48 ≤ c.toNat ∧ c.toNat ≤ 57 then some (c.toNat - 48) else none

/-- Left-to-right accumulation of decimal digits, as in `strconv.ParseUint`
with base 10; fails on the first non-digit character. -/
def parseDigitsAux : List Char → Nat → Option Nat
  | [], acc => some acc
  | c :: cs, acc =>
    match digitVal c with
    | none => none
    | some d => parseDigitsAux cs (acc * 10 + d)

/-- Digit-string parse requiring at least one digit (`strconv.ParseUint`
errors on the empty string). -/
def parseDigits (cs : List Char) : Option Nat :=
  if cs = [] then none else parseDigitsAux cs 0

/-- Sign handling of `strconv.ParseInt`: an optional leading `'-'` or `'+'`
is stripped and remembered. -/
def splitSign (cs : List Char) : Bool × List Char :=
  match cs with
  | [] => (false, [])
  | c :: rest =>
    if c = '-' then (true, rest)
    else if c = '+' then (false, rest)
    else (false, c :: rest)

/-- Model of Go's `strconv.Atoi` on a 64-bit platform: optional sign, base-10
digits, and the `int64` range check (`strconv.ErrRange` is reported as an
error by `Atoi`, which the handler treats the same as a syntax error).
Returns `none` exactly when `Atoi` returns a non-nil error. -/
def atoi (s : String) : Option Int :=
  let p := splitSign s.data
  match parseDigits p.2 with
  | none => none
  | some n =>
    if p.1 then
      if n ≤ 2 ^ 63 then some (-(n : Int)) else none
    else
      if n < 2 ^ 63 then some (n : Int) else none

/-- Big-endian decimal digit characters of `n` with explicit fuel (the
fuel only serves structural termination; `fuel ≥ n` makes it exact).
Models the digit loop of `strconv.Itoa` (`formatBits`). -/
def toDigitsAux : Nat → Nat → List Char
  | _, 0 => []
  | 0, _ + 1 => []
  | fuel + 1, m + 1 =>
    toDigitsAux fuel ((m + 1) / 10) ++ [Nat.digitChar ((m + 1) % 10)]

/-- Big-endian decimal digit characters of `n`; empty for `n = 0`. -/
def toDigitsCore (n : Nat) : List Char := toDigitsAux n n

/-- Model of Go's `strconv.Itoa` restricted to non-negative input (the only
use in the source is `strconv.Itoa(requestBodyByteLength)`, line 132). -/
def itoa (n : Nat) : String :=
  if n = 0 then "0" else String.mk (toDigitsCore n)

/-- The integrity verdict (§4.4 of the spec): the comparison performed at
lines 69–73 of the source, `trailerLength == calculatedBodyLength`, where
`trailerLength` is the `int` produced by `Atoi` and `calculatedBodyLength`
is `len(body)`. -/
inductive Verdict where
  | matched
  | mismatched
deriving DecidableEq, Repr

/-- The verification step, extracted from lines 69–73 of `serverHandler`. -/
def verifier (declaredLength : Int) (observedLength : Nat) : Verdict :=
  if declaredLength = (observedLength : Int) then .matched else .mismatched

/-- Outcome of processing one trailer field in the loop at lines 58–76:
either the field is skipped (name mismatch, or empty value list), or its
first value fails to parse (lines 64–65), or it parses and is verified
(lines 66–74). -/
inductive TrailerOutcome where
  | skipped
  | parseFailed
  | verified (declared : Int) (v : Verdict)
deriving DecidableEq, Repr

/-- Body of the loop at lines 58–76 of `serverHandler`, for one trailer
field `(name, values)`: the guard `name == trailerHeaderName &&
len(values) > 0` (line 61), then `strconv.Atoi(values[0])` (lines 62–63),
then the verification comparison. -/
def processTrailerField (observed : Nat) (name : String) (values : List String) :
    TrailerOutcome :=
  if name = trailerHeaderName ∧ 0 < values.length then
    match atoi (values.headD "") with
    | none => .parseFailed
    | some d => .verified d (verifier d observed)
  else .skipped

/-- An inbound HTTP request as `serverHandler` sees it: headers, the result
of `io.ReadAll(r.Body)` (body bytes, or a read error), and the trailer map
that the transport populates once the body has been fully read. -/
structure HttpRequest where
  method : String
  header : List (String × List String)
  bodyResult : Except String (List Nat)
  trailer : List (String × List String)
deriving Repr

/-- The response the handler writes: status code and body text. -/
structure HttpResponse where
  status : Nat
  body : String
deriving DecidableEq, Repr

/-- Everything observable about one `serverHandler` invocation: the
response, the computed `calculatedBodyLength` (`none` when the body read
failed, line 45), and the per-field trailer outcomes in map order. -/
structure HandlerResult where
  response : HttpResponse
  observed : Option Nat
  outcomes : List TrailerOutcome
deriving DecidableEq, Repr

/-- The fixed confirmation body written at line 83 of the source. -/
def confirmationMessage : String :=
  "Server received your request and processed trailers.\n"

/-- The error body written by `http.Error` at line 47 (`http.Error` appends
a newline to its message). -/
def bodyReadErrorMessage : String := "Error reading request body\n"

/-- Model of `serverHandler` (lines 27–88): on a body-read error respond
500 and stop (lines 45–49); otherwise compute `calculatedBodyLength`
(line 52), process every trailer field (lines 57–79) and respond 200 with
the fixed confirmation message (lines 82–83). -/
def serverHandler (r : HttpRequest) : HandlerResult :=
  match r.bodyResult with
  | .error _ => ⟨⟨500, bodyReadErrorMessage⟩, none, []⟩
  | .ok body =>
    let calculatedBodyLength := body.length
    ⟨⟨200, confirmationMessage⟩, some calculatedBodyLength,
      r.trailer.map (fun p => processTrailerField calculatedBodyLength p.1 p.2)⟩

/-- Model of `http.Header.Get`: first value stored under the key, `""` when
the key is absent (keys are kept in canonical MIME form on both sides, so
plain lookup is faithful here). -/
def headerGet (h : List (String × List String)) (key : String) : String :=
  match h.find? (fun p => p.1 == key) with
  | some p => p.2.headD ""
  | none => ""

/-- The request built by the client (`main`, lines 107–132), generalised
over the payload: method POST, the `Trailer` announce header set to
`trailerHeaderName` (line 124), the payload streamed as the body, and the
trailer field set to `strconv.Itoa` of the payload's byte length
(line 132). -/
def clientRequest (payload : List Nat) : HttpRequest :=
  { method := "POST"
  , header := [("Trailer", [trailerHeaderName])]
  , bodyResult := .ok payload
  , trailer := [(trailerHeaderName, [itoa payload.length])] }

/-- How the pipe's write end is closed by the body-producer goroutine
(lines 139–155): `pw.Close()` on success, `pw.CloseWithError(writeErr)`
when the write failed. -/
inductive PipeClose where
  | clean
  | withError (e : String)
deriving DecidableEq, Repr

/-- Outcome of `pw.Write(requestBodyBytes)` (line 142): either every byte
was accepted, or the write failed with error `e` after the transport
accepted only the prefix `written` of the payload. -/
inductive WriteOutcome where
  | allWritten
  | failed (written : List Nat) (e : String)
deriving DecidableEq, Repr

/-- What the producer goroutine leaves behind: the bytes that entered the
pipe and the way the write end was closed. -/
structure ProducerResult where
  streamed : List Nat
  close : PipeClose
deriving DecidableEq, Repr

/-- Model of the body-producer goroutine (lines 139–155): write the whole
payload, then `Close` the write end; on a write error, `CloseWithError`
with that error instead. -/
def bodyProducer (payload : List Nat) : WriteOutcome → ProducerResult
  | .allWritten => ⟨payload, .clean⟩
  | .failed w e => ⟨w, .withError e⟩

/-- What the pipe's reader observes at the end of the stream. -/
inductive ReadEnd where
  | eof
  | errored (e : String)
deriving DecidableEq, Repr

/-- Documented `io.Pipe` semantics (external collaborator): `Close` makes
the reader see `io.EOF`, `CloseWithError(err)` makes the reader see
`err`. -/
def pipeReaderView : PipeClose → ReadEnd
  | .clean => .eof
  | .withError e => .errored e

/-- Abstract steps of one `serverHandler` invocation, in source order:
logging the request headers (lines 33–40), the return of
`io.ReadAll(r.Body)` (line 44), the first access of `r.Trailer` (line 57),
one verification comparison per parsed trailer field (lines 69–73), and
writing the response (lines 47 or 82–83). -/
inductive HStep where
  | logHeaders
  | readBody
  | accessTrailers
  | verify
  | respond (status : Nat)
deriving DecidableEq, Repr

/-- The verification steps contributed by one trailer field: one `verify`
step exactly when the field is recognised and its value parses. -/
def fieldSteps (observed : Nat) (p : String × List String) : List HStep :=
  match processTrailerField observed p.1 p.2 with
  | .verified _ _ => [.verify]
  | _ => []

/-- The ordered step trace of `serverHandler` on a request, read off the
source: headers are logged, then the body read returns; on error the 500
response ends the handler (lines 45–49); otherwise the trailer map is
accessed, each recognised field is verified, and the 200 response is
written. -/
def serverHandlerTrace (r : HttpRequest) : List HStep :=
  .logHeaders :: .readBody ::
    match r.bodyResult with
    | .error _ => [.respond 500]
    | .ok body =>
      .accessTrailers ::
        ((r.trailer.map (fieldSteps body.length)).flatten ++ [.respond 200])

/-! ## Helper lemmas: decimal formatting round-trips through `atoi` -/

theorem digitVal_digitChar (d : Nat) (h : d < 10) :
    digitVal (Nat.digitChar d) = some d := by
  interval_cases d <;> decide

theorem parseDigitsAux_append (xs ys : List Char) (acc : Nat) :
    parseDigitsAux (xs ++ ys) acc =
      match parseDigitsAux xs acc with
      | none => none
      | some a => parseDigitsAux ys a := by
  induction xs generalizing acc with
  | nil => rfl
  | cons c cs ih =>
    simp only [List.cons_append, parseDigitsAux]
    cases hd : digitVal c with
    | none => rfl
    | some d => exact ih _

theorem toDigitsAux_mem (fuel : Nat) :
    ∀ n c, c ∈ toDigitsAux fuel n → 48 ≤ c.toNat ∧ c.toNat ≤ 57 := by
  induction fuel with
  | zero =>
    intro n c hc
    cases n <;> simp [toDigitsAux] at hc
  | succ f ih =>
    intro n c hc
    cases n with
    | zero => simp [toDigitsAux] at hc
    | succ m =>
      simp only [toDigitsAux] at hc
      rcases List.mem_append.mp hc with h1 | h2
      · exact ih _ c h1
      · obtain ⟨k, hk, rfl⟩ : ∃ k, k < 10 ∧ c = Nat.digitChar k :=
          ⟨(m + 1) % 10, Nat.mod_lt _ (by decide), by simpa using h2⟩
        interval_cases k <;> decide

theorem toDigitsCore_mem (n : Nat) :
    ∀ c ∈ toDigitsCore n, 48 ≤ c.toNat ∧ c.toNat ≤ 57 :=
  fun c hc => toDigitsAux_mem n n c hc

theorem toDigitsCore_ne_nil (n : Nat) (h : n ≠ 0) : toDigitsCore n ≠ [] := by
  rw [toDigitsCore]
  cases n with
  | zero => exact absurd rfl h
  | succ m => simp [toDigitsAux]

theorem parseDigitsAux_toDigitsAux (fuel : Nat) :
    ∀ n acc, n ≤ fuel →
      parseDigitsAux (toDigitsAux fuel n) acc =
        some (acc * 10 ^ (toDigitsAux fuel n).length + n) := by
  induction fuel with
  | zero =>
    intro n acc hn
    have : n = 0 := Nat.le_zero.mp hn
    subst this
    simp [toDigitsAux, parseDigitsAux]
  | succ f ih =>
    intro n acc hn
    cases n with
    | zero => simp [toDigitsAux, parseDigitsAux]
    | succ m =>
      have hdiv : (m + 1) / 10 ≤ f := by
        have := Nat.div_lt_self (Nat.succ_pos m) (show 1 < 10 by decide)
        omega
      simp only [toDigitsAux]
      rw [parseDigitsAux_append, ih _ acc hdiv]
      have hm : (m + 1) % 10 < 10 := Nat.mod_lt _ (by decide)
      simp only [parseDigitsAux, digitVal_digitChar _ hm]
      congr 1
      rw [List.length_append, List.length_singleton, pow_succ]
      calc (acc * 10 ^ (toDigitsAux f ((m + 1) / 10)).length + (m + 1) / 10) * 10
            + (m + 1) % 10
          = acc * (10 ^ (toDigitsAux f ((m + 1) / 10)).length * 10) +
              (10 * ((m + 1) / 10) + (m + 1) % 10) := by ring
        _ = acc * (10 ^ (toDigitsAux f ((m + 1) / 10)).length * 10) + (m + 1) := by
              rw [Nat.div_add_mod]

theorem parseDigitsAux_toDigitsCore (n : Nat) (acc : Nat) :
    parseDigitsAux (toDigitsCore n) acc =
      some (acc * 10 ^ (toDigitsCore n).length + n) :=
  parseDigitsAux_toDigitsAux n n acc (Nat.le_refl n)

theorem splitSign_of_digits (cs : List Char)
    (h : ∀ c ∈ cs, 48 ≤ c.toNat) : splitSign cs = (false, cs) := by
  cases cs with
  | nil => rfl
  | cons c rest =>
    have hd : 48 ≤ c.toNat := h c (List.mem_cons_self c rest)
    have h1 : c ≠ '-' := fun hc => absurd (hc ▸ hd) (by decide)
    have h2 : c ≠ '+' := fun hc => absurd (hc ▸ hd) (by decide)
    simp only [splitSign, if_neg h1, if_neg h2]

theorem atoi_itoa (n : Nat) (h : n < 2 ^ 63) : atoi (itoa n) = some n := by
  by_cases h0 : n = 0
  · subst h0; decide
  · have hmk : (itoa n).data = toDigitsCore n := by
      rw [itoa, if_neg h0]
    have hsplit : splitSign (itoa n).data = (false, toDigitsCore n) := by
      rw [hmk]
      exact splitSign_of_digits _ (fun c hc => (toDigitsCore_mem n c hc).1)
    have hne : toDigitsCore n ≠ [] := toDigitsCore_ne_nil n h0
    have hparse : parseDigits (toDigitsCore n) = some n := by
      rw [parseDigits, if_neg hne, parseDigitsAux_toDigitsCore]
      simp
    have h9 : n < 9223372036854775808 := by
      calc n < 2 ^ 63 := h
        _ = 9223372036854775808 := by norm_num
    rw [atoi]
    simp [hsplit, hparse, h9]

theorem mem_fieldSteps (observed : Nat) (p : String × List String) (x : HStep) :
    x ∈ fieldSteps observed p → x = .verify := by
  unfold fieldSteps
  cases processTrailerField observed p.1 p.2 <;> simp

/-! ## The claims -/

/-- C1: for every payload `P` (the empty payload included), if the client
declares `len(P)` in the trailer and streams exactly `P`, the handler's
observed length is `len(P)`, the declared value parses back to `len(P)`,
the verdict is a match, and the response is the 200 confirmation.  The
bound `len(P) < 2^63` is the range of Go's 64-bit `int`, which `len`
always satisfies. -/
theorem c1_round_trip_integrity (P : List Nat) (h : P.length < 2 ^ 63) :
    serverHandler (clientRequest P) =
      ⟨⟨200, confirmationMessage⟩, some P.length,
        [.verified (P.length : Int) .matched]⟩ := by
  have hat : atoi (itoa P.length) = some (P.length : Int) := atoi_itoa P.length h
  simp [serverHandler, clientRequest, processTrailerField, hat, verifier]

/-- C1 witness: the demo payload `"abcde"` (5 bytes) round-trips to a
match. -/
theorem c1_round_trip_integrity_witness :
    serverHandler (clientRequest [97, 98, 99, 100, 101]) =
      ⟨⟨200, confirmationMessage⟩, some 5, [.verified 5 .matched]⟩ :=
  c1_round_trip_integrity [97, 98, 99, 100, 101] (by decide)

/-- C2: the verification step (lines 69–73) is a pure function of the
declared and observed lengths, yielding the match verdict exactly when
they are equal and the mismatch verdict otherwise. -/
theorem c2_verifier_pure (declared observed : Nat) :
    (verifier declared observed = .matched ↔ declared = observed) ∧
    (verifier declared observed = .mismatched ↔ declared ≠ observed) := by
  by_cases h : declared = observed
  · subst h; simp [verifier]
  · have hι : (declared : Int) ≠ (observed : Int) := by exact_mod_cast h
    simp [verifier, hι, h]

/-- C3 counterexample: the value `"-1"` is not a non-negative base-10
integer, yet `strconv.Atoi` parses it, so the handler does *not* skip
verification: it runs the comparison and reports a mismatch. -/
theorem c3_counterexample :
    serverHandler ⟨"POST", [("Trailer", [trailerHeaderName])], .ok [],
        [(trailerHeaderName, ["-1"])]⟩ =
      ⟨⟨200, confirmationMessage⟩, some 0, [.verified (-1) .mismatched]⟩ ∧
    (serverHandler ⟨"POST", [("Trailer", [trailerHeaderName])], .ok [],
        [(trailerHeaderName, ["-1"])]⟩).outcomes ≠ [.parseFailed] := by
  constructor <;> decide

/-- C3 (amended): the matching trailer value is parsed with
`strconv.Atoi`, which accepts an optional sign and hence any base-10
integer in the signed 64-bit range; when that parse fails (non-numeric,
empty, or out of range) the handler skips verification for the field and
still responds HTTP 200; when it succeeds — negative values included —
verification runs, and a negative declared value always yields a
mismatch. -/
theorem c3_amended_atoi_parse (body : List Nat) (m : String)
    (hdr : List (String × List String)) (tval : String) :
    (atoi tval = none →
      serverHandler ⟨m, hdr, .ok body, [(trailerHeaderName, [tval])]⟩ =
        ⟨⟨200, confirmationMessage⟩, some body.length, [.parseFailed]⟩) ∧
    (∀ d : Int, atoi tval = some d →
      serverHandler ⟨m, hdr, .ok body, [(trailerHeaderName, [tval])]⟩ =
        ⟨⟨200, confirmationMessage⟩, some body.length,
          [.verified d (verifier d body.length)]⟩) ∧
    (∀ d : Int, d < 0 → verifier d body.length = .mismatched) := by
  refine ⟨?_, ?_, ?_⟩
  · intro hfail
    simp [serverHandler, processTrailerField, hfail]
  · intro d hok
    simp [serverHandler, processTrailerField, hok]
  · intro d hneg
    have : d ≠ (body.length : Int) := by
      intro hd
      rw [hd] at hneg
      exact absurd hneg (not_lt.mpr (Int.natCast_nonneg _))
    simp [verifier, this]

/-- C3 witness: the non-numeric value `"abc"` fails to parse, so the
handler skips verification and responds 200. -/
theorem c3_amended_atoi_parse_witness :
    serverHandler ⟨"POST", [], .ok [], [(trailerHeaderName, ["abc"])]⟩ =
      ⟨⟨200, confirmationMessage⟩, some 0, [.parseFailed]⟩ :=
  (c3_amended_atoi_parse [] "POST" [] "abc").1 (by decide)

/-- C4: when the announce header carries the expected name (as the client
always sets it), a trailer field whose name differs from the announced
name is never used for verification: its outcome is `skipped`. -/
theorem c4_name_binding (r : HttpRequest) (body : List Nat)
    (hb : r.bodyResult = .ok body)
    (hann : headerGet r.header "Trailer" = trailerHeaderName)
    (i : Nat) (p : String × List String)
    (hp : r.trailer.get? i = some p)
    (hname : p.1 ≠ headerGet r.header "Trailer") :
    (serverHandler r).outcomes.get? i = some .skipped := by
  rw [hann] at hname
  have houts : (serverHandler r).outcomes =
      r.trailer.map (fun q => processTrailerField body.length q.1 q.2) := by
    simp [serverHandler, hb]
  rw [houts, List.get?_map, hp]
  simp [processTrailerField, hname]

/-- C4 witness: a trailer field named `X-Other` is skipped. -/
theorem c4_name_binding_witness :
    (serverHandler ⟨"POST", [("Trailer", [trailerHeaderName])], .ok [97],
        [("X-Other", ["1"])]⟩).outcomes.get? 0 = some .skipped :=
  c4_name_binding _ [97] rfl (by decide) 0 ("X-Other", ["1"]) rfl (by decide)

/-- C5: on a body-read error the handler responds 500 with the error
message, performs no trailer processing (no trailer access, no parse, no
verification in the trace), and the response is not the 200
confirmation. -/
theorem c5_body_read_failure (r : HttpRequest) (e : String)
    (h : r.bodyResult = .error e) :
    serverHandler r = ⟨⟨500, bodyReadErrorMessage⟩, none, []⟩ ∧
    serverHandlerTrace r = [.logHeaders, .readBody, .respond 500] ∧
    (serverHandler r).response.status ≠ 200 := by
  refine ⟨?_, ?_, ?_⟩ <;> simp [serverHandler, serverHandlerTrace, h]

/-- C5 witness. -/
theorem c5_body_read_failure_witness :
    serverHandler ⟨"POST", [], .error "boom", [(trailerHeaderName, ["5"])]⟩ =
      ⟨⟨500, bodyReadErrorMessage⟩, none, []⟩ :=
  (c5_body_read_failure ⟨"POST", [], .error "boom",
    [(trailerHeaderName, ["5"])]⟩ "boom" rfl).1

/-- C6: whenever the body read succeeds the handler responds 200 with the
same fixed confirmation message, whatever the trailer map contains. -/
theorem c6_fixed_success_response (r : HttpRequest) (body : List Nat)
    (h : r.bodyResult = .ok body) :
    (serverHandler r).response = ⟨200, confirmationMessage⟩ := by
  simp [serverHandler, h]

/-- C6 witness: an unparseable trailer value still gets the fixed 200
response. -/
theorem c6_fixed_success_response_witness :
    (serverHandler ⟨"POST", [], .ok [1, 2],
        [(trailerHeaderName, ["notanumber"])]⟩).response =
      ⟨200, confirmationMessage⟩ :=
  c6_fixed_success_response _ [1, 2] rfl

/-- C7: the handler's step trace starts with logging the headers, then the
body read; the body read occurs only at position 1, and every trailer
access and every verification comparison occurs strictly later than the
body read. -/
theorem c7_step_order (r : HttpRequest) :
    (serverHandlerTrace r).get? 0 = some .logHeaders ∧
    (serverHandlerTrace r).get? 1 = some .readBody ∧
    (∀ i, (serverHandlerTrace r).get? i = some .readBody → i = 1) ∧
    (∀ i, (serverHandlerTrace r).get? i = some .accessTrailers → 1 < i) ∧
    (∀ i, (serverHandlerTrace r).get? i = some .verify → 1 < i) := by
  obtain ⟨rest, htr, hmem⟩ : ∃ rest,
      serverHandlerTrace r = .logHeaders :: .readBody :: rest ∧
      ∀ x ∈ rest, x ≠ HStep.readBody := by
    cases hb : r.bodyResult with
    | error e =>
      refine ⟨[.respond 500], by simp [serverHandlerTrace, hb], ?_⟩
      intro x hx
      simp only [List.mem_singleton] at hx
      subst hx
      simp
    | ok body =>
      refine ⟨.accessTrailers ::
        ((r.trailer.map (fieldSteps body.length)).flatten ++ [.respond 200]),
        by simp [serverHandlerTrace, hb], ?_⟩
      intro x hx
      rcases List.mem_cons.mp hx with rfl | hx2
      · simp
      rcases List.mem_append.mp hx2 with h1 | h2
      · rcases List.mem_flatten.mp h1 with ⟨l, hl, hxl⟩
        rcases List.mem_map.mp hl with ⟨p, hp, rfl⟩
        rw [mem_fieldSteps body.length p x hxl]
        simp
      · simp only [List.mem_singleton] at h2
        subst h2
        simp
  rw [htr]
  refine ⟨rfl, rfl, ?_, ?_, ?_⟩
  · intro i hi
    rcases i with _ | (_ | k)
    · simp at hi
    · rfl
    · exfalso
      simp only [List.get?] at hi
      exact hmem _ (List.get?_mem hi) rfl
  · intro i hi
    rcases i with _ | (_ | k)
    · simp at hi
    · simp at hi
    · omega
  · intro i hi
    rcases i with _ | (_ | k)
    · simp at hi
    · simp at hi
    · omega

/-- C7 witness: on a concrete request the trailer access sits at position
2, strictly after the body read at position 1. -/
theorem c7_step_order_witness :
    (serverHandlerTrace ⟨"POST", [], .ok [1],
        [(trailerHeaderName, ["1"])]⟩).get? 2 = some HStep.accessTrailers ∧
    1 < 2 :=
  ⟨by decide,
    (c7_step_order ⟨"POST", [], .ok [1],
      [(trailerHeaderName, ["1"])]⟩).2.2.2.1 2 (by decide)⟩

/-- C8: the producer goroutine streams the whole payload and closes the
write end cleanly on success, so the reader sees end-of-file; on a write
failure it closes the write end with that error, so the reader observes
the error and never a clean end-of-stream. -/
theorem c8_producer_close (payload w : List Nat) (e : String) :
    bodyProducer payload .allWritten = ⟨payload, .clean⟩ ∧
    pipeReaderView (bodyProducer payload .allWritten).close = .eof ∧
    bodyProducer payload (.failed w e) = ⟨w, .withError e⟩ ∧
    pipeReaderView (bodyProducer payload (.failed w e)).close = .errored e ∧
    pipeReaderView (bodyProducer payload (.failed w e)).close ≠ .eof := by
  refine ⟨rfl, rfl, rfl, rfl, ?_⟩
  simp [bodyProducer, pipeReaderView]

/-- C9: the client announces the literal field name `X-Body-Byte-Length`
in the `Trailer` header and sets that trailer field to the decimal ASCII
text of the body's byte length: every character of the value is an ASCII
digit, `5` is rendered as `"5"`, and the text parses back to the
length. -/
theorem c9_client_trailer_value (P : List Nat) :
    headerGet (clientRequest P).header "Trailer" = trailerHeaderName ∧
    trailerHeaderName = "X-Body-Byte-Length" ∧
    (clientRequest P).trailer = [(trailerHeaderName, [itoa P.length])] ∧
    itoa 5 = "5" ∧
    (∀ c ∈ (itoa P.length).data, 48 ≤ c.toNat ∧ c.toNat ≤ 57) ∧
    (P.length < 2 ^ 63 → atoi (itoa P.length) = some (P.length : Int)) := by
  refine ⟨rfl, rfl, rfl, by decide, ?_, fun h => atoi_itoa P.length h⟩
  intro c hc
  by_cases h0 : P.length = 0
  · rw [itoa, if_pos h0] at hc
    have hc0 : c = '0' := by
      have : c ∈ ['0'] := hc
      simpa using this
    subst hc0
    decide
  · rw [itoa, if_neg h0] at hc
    exact toDigitsCore_mem _ c hc

/-- C9 witness: for the 5-byte demo payload the trailer value is a digit
string parsing back to 5. -/
theorem c9_client_trailer_value_witness :
    (48 ≤ '5'.toNat ∧ '5'.toNat ≤ 57) ∧
    atoi (itoa ([97, 98, 99, 100, 101] : List Nat).length) = some 5 := by
  have h := c9_client_trailer_value [97, 98, 99, 100, 101]
  exact ⟨h.2.2.2.2.1 '5' (by decide), h.2.2.2.2.2 (by decide)⟩

/-- C10: the guarded access at line 61 means an empty value list is
skipped outright, and a multi-valued list is treated exactly like its
first value alone: only `values[0]` is ever parsed and verified. -/
theorem c10_guarded_first_value (observed : Nat) (name v : String)
    (vs : List String) :
    processTrailerField observed name [] = .skipped ∧
    processTrailerField observed name (v :: vs) =
      processTrailerField observed name [v] := by
  constructor
  · simp [processTrailerField]
  · by_cases h : name = trailerHeaderName <;> simp [processTrailerField, h]
